import Mathlib

/-!
# Verification of the EduManage server (src/index.js)

A shallow embedding of the Express/MongoDB route handlers of the EduManage
backend.  Collections are modelled as Lean lists (MongoDB `insertOne`
appends; `findOne` returns the first match; `updateOne`/`deleteOne` touch
the first match only).  JavaScript values appearing in documents are
modelled by `JsVal` together with JS truthiness; a missing/`null` request
header email is modelled by the empty string (all handlers test truthiness
before using an email, so the two are indistinguishable here).  Store
generated `_id`s and `new Date()` timestamps are passed in as explicit
parameters (`newId`, `now`).

Where the repository contains several near-duplicate iterations of a route,
the embedding follows `src/index.js`, and for the teacher-request workflow
the later TeacherRequest-collection variant (src/index.js lines 315-424),
which the design document designates as superseding the earlier boolean
flag variant.
-/

namespace EduManage

/-- A JSON-ish value as it appears in a request body or stored document.
`vNull` also stands for JavaScript `undefined`. -/
inductive JsVal where
  | vNull : JsVal
  | vStr : String → JsVal
  | vNum : Int → JsVal
  | vBool : Bool → JsVal
deriving DecidableEq, Repr

/-- JavaScript truthiness. -/
def truthy : JsVal → Bool
  | .vNull => false
  | .vStr s => s != ""
  | .vNum n => n != 0
  | .vBool b => b

/-- A document: ordered association list from field name to value. -/
abbrev Doc := List (String × JsVal)

/-- Field lookup (first binding wins). -/
def getField : Doc → String → Option JsVal
  | [], _ => none
  | (k', v) :: rest, k => if k' = k then some v else getField rest k

/-- `doc[k] = v` / MongoDB `$set` of a single field: replaces the first
binding of `k`, or appends one. -/
def setField : Doc → String → JsVal → Doc
  | [], k, v => [(k, v)]
  | (k', v') :: rest, k, v =>
      if k' = k then (k, v) :: rest else (k', v') :: setField rest k v

/-- MongoDB `$set` with an update document: sets the fields in order. -/
def applySet (d : Doc) (us : List (String × JsVal)) : Doc :=
  us.foldl (fun acc kv => setField acc kv.1 kv.2) d

/-- Truthiness of `doc[k]` (a missing field is `undefined`, hence falsy). -/
def truthyField (d : Doc) (k : String) : Bool :=
  match getField d k with
  | some v => truthy v
  | none => false

/-- A record of the `users` collection. -/
structure User where
  name : JsVal
  email : String
  photo : JsVal
  role : String
  teacherRequest : Bool
deriving DecidableEq, Repr

/-- A record of the `teacherRequests` collection. -/
structure TReq where
  email : String
  name : JsVal
  experience : JsVal
  title : JsVal
  category : JsVal
  status : String
  requestedAt : Nat
  approvedAt : Option Nat
  rejectedAt : Option Nat
deriving DecidableEq, Repr

/-- A record of the `classes` collection: a store id plus an open document
(classes keep whatever fields the creating payload carried). -/
structure ClassDoc where
  id : Nat
  fields : Doc
deriving DecidableEq, Repr

/-- A record of the `enroll` collection. -/
structure Enrollment where
  classId : Nat
  email : String
  enrolledAt : Nat
deriving DecidableEq, Repr

/-- The database state: the four collections the verified routes touch. -/
structure DB where
  users : List User
  classes : List ClassDoc
  enrolls : List Enrollment
  teacherRequests : List TReq
deriving DecidableEq, Repr

/-- The caller identity derived from the `x-user-email` / `x-user-role`
headers; `""` models a missing header (`null`). -/
structure Ident where
  email : String
  role : String
deriving DecidableEq, Repr

/-- An HTTP response: status code and message. -/
structure Resp where
  status : Nat
  msg : String
deriving DecidableEq, Repr

/-- MongoDB `updateOne`: apply `f` to the first element matching `p`. -/
def updateFirst (p : α → Bool) (f : α → α) : List α → List α
  | [] => []
  | x :: xs => if p x then f x :: xs else x :: updateFirst p f xs

/-- MongoDB `deleteOne`: remove the first element matching `p`. -/
def deleteFirst (p : α → Bool) : List α → List α
  | [] => []
  | x :: xs => if p x then xs else x :: deleteFirst p xs

/-- `userCollection.findOne({ email })`. -/
def findUser (db : DB) (email : String) : Option User :=
  db.users.find? (fun u => u.email == email)

/-- `teacherRequestCollection.findOne({ email })`. -/
def findTReq (db : DB) (email : String) : Option TReq :=
  db.teacherRequests.find? (fun t => t.email == email)

/-- `teacherRequestCollection.findOne({ email, status: 'pending' })`. -/
def findPendingTReq (db : DB) (email : String) : Option TReq :=
  db.teacherRequests.find? (fun t => t.email == email && t.status == "pending")

/-- `classCollection.findOne({ _id })`. -/
def findClass (db : DB) (id : Nat) : Option ClassDoc :=
  db.classes.find? (fun c => c.id == id)

/-- `enrollCollection.findOne({ classId, email })`. -/
def findEnroll (db : DB) (classId : Nat) (email : String) : Option Enrollment :=
  db.enrolls.find? (fun e => e.classId == classId && e.email == email)

/-- `POST /api/users` (src/index.js lines 63-79): create a user with role
`student`; a second attempt with an existing email is a report-only no-op. -/
def createUser (name photo : JsVal) (email : String) (db : DB) : Resp × DB :=
  if email = "" then (⟨400, "Email is required"⟩, db)
  else
    match findUser db email with
    | some _ => (⟨200, "User already exists"⟩, db)
    | none =>
        (⟨201, "User created"⟩,
         { db with users := db.users ++ [⟨name, email, photo, "student", false⟩] })

/-- `POST /api/users/request-teacher`, the TeacherRequest-collection variant
(src/index.js lines 315-360): apply to become a teacher. -/
def requestTeacher (ident : Ident) (name experience title category : JsVal)
    (now : Nat) (db : DB) : Resp × DB :=
  if ident.email = "" then (⟨400, "User not logged in"⟩, db)
  else if !truthy name || !truthy experience || !truthy title || !truthy category then
    (⟨400, "All fields are required"⟩, db)
  else
    match findUser db ident.email with
    | none => (⟨404, "User not found"⟩, db)
    | some u =>
      if u.role = "teacher" then (⟨400, "You are already a teacher"⟩, db)
      else
        match findTReq db ident.email with
        | some r =>
          if r.status = "pending" then (⟨400, "Teacher request already pending"⟩, db)
          else
            (⟨200, "Teacher request submitted for review"⟩,
             { db with teacherRequests :=
                 (updateFirst (fun t => t.email == ident.email)
                   (fun t =>
                     { t with
                       name := name
                       experience := experience
                       title := title
                       category := category
                       status := "pending"
                       requestedAt := now })
                   db.teacherRequests) })
        | none =>
            (⟨200, "Teacher request submitted for review"⟩,
             { db with teacherRequests := db.teacherRequests ++
                 [⟨ident.email, name, experience, title, category, "pending", now, none, none⟩] })

/-- `PATCH /api/users/request-teacher/resubmit` (src/index.js lines 374-389). -/
def resubmitTeacher (ident : Ident) (now : Nat) (db : DB) : Resp × DB :=
  if ident.email = "" then (⟨400, "User not logged in"⟩, db)
  else
    match findTReq db ident.email with
    | some r =>
      if r.status = "rejected" then
        (⟨200, "Teacher request resubmitted for review"⟩,
         { db with teacherRequests :=
             (updateFirst (fun t => t.email == ident.email)
               (fun t => { t with status := "pending", requestedAt := now })
               db.teacherRequests) })
      else (⟨400, "No rejected request to resubmit"⟩, db)
    | none => (⟨400, "No rejected request to resubmit"⟩, db)

/-- `PATCH /api/users/approve-teacher/:email`, the TeacherRequest-collection
variant (src/index.js lines 398-411), behind `requireAdmin`
(src/index.js lines 45-50).  Note: the handler never consults the `users`
collection before updating it; `updateOne({email}, {$set: {role: 'teacher'}})`
simply matches zero documents when no such user exists. -/
def approveTeacher (ident : Ident) (email : String) (now : Nat) (db : DB) : Resp × DB :=
  if ident.role ≠ "admin" then (⟨403, "Admins only"⟩, db)
  else
    match findPendingTReq db email with
    | none => (⟨404, "No pending request found for this user"⟩, db)
    | some _ =>
        (⟨200, "Teacher request approved and user role updated"⟩,
         { db with
             users := (updateFirst (fun u => u.email == email)
               (fun u => { u with role := "teacher" }) db.users),
             teacherRequests := (updateFirst (fun t => t.email == email)
               (fun t => { t with status := "approved", approvedAt := some now })
               db.teacherRequests) })

/-- `POST /classes` (src/index.js lines 168-180): validates presence
(truthiness) of title/price/description/image, then overwrites the payload's
`status` with `"pending"` and `email` with the caller's identity email before
inserting.  `newId` models the store-generated `_id`. -/
def postClass (ident : Ident) (body : Doc) (newId : Nat) (db : DB) : Resp × DB :=
  if !truthyField body "title" || !truthyField body "price" ||
     !truthyField body "description" || !truthyField body "image" then
    (⟨400, "Missing required fields"⟩, db)
  else
    (⟨201, "Class added"⟩,
     { db with classes := db.classes ++
         [⟨newId, setField (setField body "status" (.vStr "pending"))
                    "email" (.vStr ident.email)⟩] })

/-- The `allowedFields` whitelist of `PUT /classes/:id` (src/index.js line 195). -/
def allowedFields : List String := ["title", "price", "description", "image"]

/-- The `updateFields` object built by `PUT /classes/:id`
(src/index.js lines 196-199): a whitelisted field is included only when the
payload holds a truthy value for it. -/
def updateFieldsOf (update : Doc) : List (String × JsVal) :=
  allowedFields.filterMap (fun k =>
    match getField update k with
    | some v => if truthy v then some (k, v) else none
    | none => none)

/-- `PUT /classes/:id` (src/index.js lines 182-206): owner-or-admin gated
content update restricted to `allowedFields`. -/
def putClass (ident : Ident) (id : Nat) (update : Doc) (db : DB) : Resp × DB :=
  match findClass db id with
  | none => (⟨404, "Class not found"⟩, db)
  | some c =>
    if ident.role ≠ "admin" ∧ getField c.fields "email" ≠ some (.vStr ident.email) then
      (⟨403, "Unauthorized"⟩, db)
    else
      (⟨200, "Class updated"⟩,
       { db with classes :=
           (updateFirst (fun c' => c'.id == id)
             (fun c' => { c' with fields := applySet c'.fields (updateFieldsOf update) })
             db.classes) })

/-- `PATCH /classes/:id/status` (src/index.js lines 208-222), behind
`requireAdmin`: validates the status literal before any write. -/
def patchClassStatus (ident : Ident) (id : Nat) (statusVal : JsVal) (db : DB) : Resp × DB :=
  if ident.role ≠ "admin" then (⟨403, "Admins only"⟩, db)
  else if statusVal ∉ [JsVal.vStr "pending", JsVal.vStr "approved", JsVal.vStr "rejected"] then
    (⟨400, "Invalid status value"⟩, db)
  else
    (⟨200, "Status updated"⟩,
     { db with classes :=
         (updateFirst (fun c => c.id == id)
           (fun c => { c with fields := setField c.fields "status" statusVal })
           db.classes) })

/-- `DELETE /classes/:id` (src/index.js lines 224-237): owner-or-admin gated. -/
def deleteClass (ident : Ident) (id : Nat) (db : DB) : Resp × DB :=
  match findClass db id with
  | none => (⟨404, "Class not found"⟩, db)
  | some c =>
    if ident.role ≠ "admin" ∧ getField c.fields "email" ≠ some (.vStr ident.email) then
      (⟨403, "Unauthorized"⟩, db)
    else
      (⟨200, "Class deleted"⟩,
       { db with classes := deleteFirst (fun c' => c'.id == id) db.classes })

/-- `POST /enroll/:classId` (src/index.js lines 241-269): class must exist,
duplicate (classId, email) is rejected, otherwise one enrollment is inserted
with the server timestamp `now`. -/
def enroll (ident : Ident) (classId : Nat) (now : Nat) (db : DB) : Resp × DB :=
  if ident.email = "" then (⟨400, "User email missing"⟩, db)
  else
    match findClass db classId with
    | none => (⟨404, "Class not found"⟩, db)
    | some _ =>
      match findEnroll db classId ident.email with
      | some _ => (⟨400, "Already enrolled in this class"⟩, db)
      | none =>
          (⟨201, "Enrolled successfully"⟩,
           { db with enrolls := db.enrolls ++ [⟨classId, ident.email, now⟩] })

/-- Number of teacher-request records held for `email`. -/
def treqCount (db : DB) (email : String) : Nat :=
  (db.teacherRequests.filter (fun t => t.email == email)).length

/-! ## Generic lemmas about the document and collection operations -/

lemma getField_setField (d : Doc) (k : String) (v : JsVal) (k' : String) :
    getField (setField d k v) k' = if k = k' then some v else getField d k' := by
  induction d with
  | nil =>
      by_cases h : k = k' <;> simp [setField, getField, h]
  | cons kv tl ih =>
      obtain ⟨a, b⟩ := kv
      by_cases hak : a = k
      · subst hak
        by_cases hk' : a = k' <;> simp [setField, getField, hk']
      · by_cases hak' : a = k'
        · subst hak'
          have hka : ¬ k = a := fun h => hak h.symm
          simp [setField, getField, hak, hka]
        · simp [setField, getField, hak, hak', ih]

lemma getField_applySet_of_forall_ne (us : List (String × JsVal)) (d : Doc) (k : String)
    (h : ∀ kv ∈ us, kv.1 ≠ k) :
    getField (applySet d us) k = getField d k := by
  induction us generalizing d with
  | nil => rfl
  | cons kv us ih =>
      have h1 : kv.1 ≠ k := h kv (List.mem_cons_self kv us)
      have h2 : ∀ kv' ∈ us, kv'.1 ≠ k := fun kv' hm => h kv' (List.mem_cons_of_mem kv hm)
      show getField (applySet (setField d kv.1 kv.2) us) k = getField d k
      rw [ih (setField d kv.1 kv.2) h2, getField_setField, if_neg h1]

lemma mem_updateFieldsOf {kv : String × JsVal} {update : Doc}
    (h : kv ∈ updateFieldsOf update) :
    kv.1 ∈ allowedFields ∧ truthyField update kv.1 = true := by
  unfold updateFieldsOf at h
  rw [List.mem_filterMap] at h
  obtain ⟨a, ha, hfa⟩ := h
  cases hga : getField update a with
  | none => rw [hga] at hfa; exact absurd hfa (by simp)
  | some v =>
      rw [hga] at hfa
      dsimp only at hfa
      by_cases htv : truthy v = true
      · rw [if_pos htv] at hfa
        obtain rfl : (a, v) = kv := Option.some.inj hfa
        exact ⟨ha, by simp [truthyField, hga, htv]⟩
      · rw [if_neg htv] at hfa
        exact absurd hfa (by simp)

lemma find?_updateFirst (p : α → Bool) (f : α → α) (l : List α)
    (hf : ∀ x, p x = true → p (f x) = true) :
    (updateFirst p f l).find? p = (l.find? p).map f := by
  induction l with
  | nil => rfl
  | cons x xs ih =>
      by_cases hx : p x = true
      · rw [updateFirst, if_pos hx, List.find?_cons_of_pos _ (hf x hx),
            List.find?_cons_of_pos _ hx]
        rfl
      · have hx' : p x = false := Bool.eq_false_iff.mpr hx
        rw [updateFirst, if_neg (by simp [hx']), List.find?_cons_of_neg _ (by simp [hx']),
            List.find?_cons_of_neg _ (by simp [hx']), ih]

lemma length_filter_updateFirst (p q : α → Bool) (f : α → α) (l : List α)
    (hqf : ∀ x, q (f x) = q x) :
    ((updateFirst p f l).filter q).length = (l.filter q).length := by
  induction l with
  | nil => rfl
  | cons x xs ih =>
      by_cases hx : p x = true
      · rw [updateFirst, if_pos hx, List.filter_cons, List.filter_cons, hqf x]
        cases hq : q x <;> simp [hq]
      · rw [updateFirst, if_neg (by simp [Bool.eq_false_iff.mpr hx]),
            List.filter_cons, List.filter_cons]
        cases hq : q x <;> simp [hq, ih]

lemma find?_append_of_none (p : α → Bool) (l₁ l₂ : List α) (h : l₁.find? p = none) :
    (l₁ ++ l₂).find? p = l₂.find? p := by
  induction l₁ with
  | nil => rfl
  | cons x xs ih =>
      have hx : p x = false := by
        cases hpx : p x
        · rfl
        · rw [List.find?_cons_of_pos _ hpx] at h; exact absurd h (by simp)
      rw [List.find?_cons_of_neg _ (by simp [hx])] at h
      rw [List.cons_append, List.find?_cons_of_neg _ (by simp [hx]), ih h]

lemma filter_eq_nil_of_find?_none (p : α → Bool) (l : List α) (h : l.find? p = none) :
    l.filter p = [] := by
  induction l with
  | nil => rfl
  | cons x xs ih =>
      have hx : p x = false := by
        cases hpx : p x
        · rfl
        · rw [List.find?_cons_of_pos _ hpx] at h; exact absurd h (by simp)
      rw [List.find?_cons_of_neg _ (by simp [hx])] at h
      rw [List.filter_cons, if_neg (by simp [hx]), ih h]

/-! ## Concrete example states used by the witness theorems -/

/-- An empty database. -/
def dbEmpty : DB := ⟨[], [], [], []⟩

/-- A class document owned by `t@x.com`, status `pending`. -/
def exClass : ClassDoc :=
  ⟨1, [("title", .vStr "Algebra"), ("price", .vNum 20),
       ("description", .vStr "intro"), ("image", .vStr "http://x/img.png"),
       ("status", .vStr "pending"), ("email", .vStr "t@x.com")]⟩

/-- A database holding exactly `exClass`. -/
def dbClasses : DB := ⟨[], [exClass], [], []⟩

/-! ## Claim theorems -/

/-- C9: user creation is idempotent with respect to email.  If a user record
with the given email already exists, the operation reports "already exists"
and leaves the database (including that record) untouched; otherwise it
inserts exactly one user record, whose role is `"student"`. -/
theorem createUser_idempotent_email
    (name photo : JsVal) (email : String) (db : DB) (h : email ≠ "") :
    (∀ u, findUser db email = some u →
       createUser name photo email db = (⟨200, "User already exists"⟩, db)) ∧
    (findUser db email = none →
       createUser name photo email db =
         (⟨201, "User created"⟩,
          { db with users := db.users ++ [⟨name, email, photo, "student", false⟩] })) := by
  constructor
  · intro u hu
    simp [createUser, h, hu]
  · intro hn
    simp [createUser, h, hn]

/-- Witness for C9 at a concrete input. -/
theorem createUser_idempotent_email_witness :
    (∀ u, findUser dbEmpty "u@x.com" = some u →
       createUser (.vStr "N") (.vStr "P") "u@x.com" dbEmpty =
         (⟨200, "User already exists"⟩, dbEmpty)) ∧
    (findUser dbEmpty "u@x.com" = none →
       createUser (.vStr "N") (.vStr "P") "u@x.com" dbEmpty =
         (⟨201, "User created"⟩,
          { dbEmpty with users :=
              dbEmpty.users ++ [⟨.vStr "N", "u@x.com", .vStr "P", "student", false⟩] })) :=
  createUser_idempotent_email (.vStr "N") (.vStr "P") "u@x.com" dbEmpty (by decide)

/-- C6: an admin status update with a literal outside
{pending, approved, rejected} is rejected with a validation error and the
database (hence every stored class document) is unchanged. -/
theorem patchStatus_invalid_literal_rejected
    (ident : Ident) (id : Nat) (sv : JsVal) (db : DB)
    (hadm : ident.role = "admin")
    (hsv : sv ∉ [JsVal.vStr "pending", JsVal.vStr "approved", JsVal.vStr "rejected"]) :
    patchClassStatus ident id sv db = (⟨400, "Invalid status value"⟩, db) := by
  simp [patchClassStatus, hadm, hsv]

/-- Witness for C6 at a concrete input. -/
theorem patchStatus_invalid_literal_rejected_witness :
    patchClassStatus ⟨"a@x.com", "admin"⟩ 1 (JsVal.vStr "published") dbClasses =
      (⟨400, "Invalid status value"⟩, dbClasses) :=
  patchStatus_invalid_literal_rejected ⟨"a@x.com", "admin"⟩ 1 (JsVal.vStr "published")
    dbClasses (by decide) (by decide)

/-- C5: a caller who is neither admin nor the class owner gets an
authorization error from content update and delete, and a non-admin gets one
from status change; in each case the database is returned unchanged (the
check happens before any storage write). -/
theorem unauthorized_mutation_unchanged
    (ident : Ident) (id : Nat) (update : Doc) (sv : JsVal) (db : DB) (c : ClassDoc)
    (hrole : ident.role ≠ "admin")
    (hc : findClass db id = some c)
    (howner : getField c.fields "email" ≠ some (.vStr ident.email)) :
    putClass ident id update db = (⟨403, "Unauthorized"⟩, db) ∧
    deleteClass ident id db = (⟨403, "Unauthorized"⟩, db) ∧
    patchClassStatus ident id sv db = (⟨403, "Admins only"⟩, db) := by
  refine ⟨?_, ?_, ?_⟩
  · simp [putClass, hc, hrole, howner]
  · simp [deleteClass, hc, hrole, howner]
  · simp [patchClassStatus, hrole]

/-- Witness for C5 at a concrete input. -/
theorem unauthorized_mutation_unchanged_witness :
    putClass ⟨"s@x.com", "student"⟩ 1 [("title", JsVal.vStr "Hacked")] dbClasses =
      (⟨403, "Unauthorized"⟩, dbClasses) ∧
    deleteClass ⟨"s@x.com", "student"⟩ 1 dbClasses = (⟨403, "Unauthorized"⟩, dbClasses) ∧
    patchClassStatus ⟨"s@x.com", "student"⟩ 1 (JsVal.vStr "approved") dbClasses =
      (⟨403, "Admins only"⟩, dbClasses) :=
  unauthorized_mutation_unchanged ⟨"s@x.com", "student"⟩ 1 [("title", JsVal.vStr "Hacked")]
    (JsVal.vStr "approved") dbClasses exClass (by decide) (by decide) (by decide)

/-- C3: a valid class creation stores a document whose `email` field is the
caller's identity email (whatever email the payload carried) and whose
`status` field is `"pending"` (whatever status the payload carried). -/
theorem postClass_owner_and_status
    (ident : Ident) (body : Doc) (newId : Nat) (db : DB)
    (ht : truthyField body "title" = true) (hp : truthyField body "price" = true)
    (hd : truthyField body "description" = true) (hi : truthyField body "image" = true) :
    (postClass ident body newId db).1 = ⟨201, "Class added"⟩ ∧
    ∃ stored : Doc,
      (postClass ident body newId db).2.classes = db.classes ++ [⟨newId, stored⟩] ∧
      getField stored "email" = some (.vStr ident.email) ∧
      getField stored "status" = some (.vStr "pending") := by
  have hcond : (!truthyField body "title" || !truthyField body "price" ||
      !truthyField body "description" || !truthyField body "image") = false := by
    simp [ht, hp, hd, hi]
  refine ⟨?_, setField (setField body "status" (.vStr "pending")) "email" (.vStr ident.email),
    ?_, ?_, ?_⟩
  · simp [postClass, hcond]
  · simp [postClass, hcond]
  · rw [getField_setField, if_pos rfl]
  · rw [getField_setField, if_neg (by decide), getField_setField, if_pos rfl]

/-- Witness for C3: the payload carries a foreign `email` and a `status` of
`"approved"`; the stored record nevertheless belongs to the caller and is
pending. -/
theorem postClass_owner_and_status_witness :
    (postClass ⟨"t@x.com", "teacher"⟩
        [("title", .vStr "Algebra"), ("price", .vNum 20), ("description", .vStr "intro"),
         ("image", .vStr "http://x/img.png"), ("email", .vStr "evil@x.com"),
         ("status", .vStr "approved")] 7 dbEmpty).1 = ⟨201, "Class added"⟩ ∧
    ∃ stored : Doc,
      (postClass ⟨"t@x.com", "teacher"⟩
        [("title", .vStr "Algebra"), ("price", .vNum 20), ("description", .vStr "intro"),
         ("image", .vStr "http://x/img.png"), ("email", .vStr "evil@x.com"),
         ("status", .vStr "approved")] 7 dbEmpty).2.classes =
        dbEmpty.classes ++ [⟨7, stored⟩] ∧
      getField stored "email" = some (.vStr "t@x.com") ∧
      getField stored "status" = some (.vStr "pending") :=
  postClass_owner_and_status ⟨"t@x.com", "teacher"⟩
    [("title", .vStr "Algebra"), ("price", .vNum 20), ("description", .vStr "intro"),
     ("image", .vStr "http://x/img.png"), ("email", .vStr "evil@x.com"),
     ("status", .vStr "approved")] 7 dbEmpty (by decide) (by decide) (by decide) (by decide)

/-- A rejected teacher request held by `r@x.com`. -/
def exReqRejected : TReq :=
  ⟨"r@x.com", .vStr "R", .vStr "beginner", .vStr "T", .vStr "C", "rejected", 1, none, some 2⟩

/-- A database with the student `r@x.com` and their rejected request. -/
def dbRejected : DB :=
  ⟨[⟨.vStr "R", "r@x.com", .vStr "P", "student", false⟩], [], [], [exReqRejected]⟩

/-- C7: resubmit succeeds exactly from status `"rejected"` — the request then
becomes `"pending"` with the timestamp refreshed — and fails without any
change when no request exists or its status is `"pending"`/`"approved"`. -/
theorem resubmit_only_from_rejected
    (ident : Ident) (now : Nat) (db : DB) (h : ident.email ≠ "") :
    (∀ r, findTReq db ident.email = some r → r.status = "rejected" →
       (resubmitTeacher ident now db).1 = ⟨200, "Teacher request resubmitted for review"⟩ ∧
       findTReq (resubmitTeacher ident now db).2 ident.email =
         some { r with status := "pending", requestedAt := now }) ∧
    (findTReq db ident.email = none →
       resubmitTeacher ident now db = (⟨400, "No rejected request to resubmit"⟩, db)) ∧
    (∀ r, findTReq db ident.email = some r → r.status ≠ "rejected" →
       resubmitTeacher ident now db = (⟨400, "No rejected request to resubmit"⟩, db)) := by
  refine ⟨?_, ?_, ?_⟩
  · intro r hr hrej
    constructor
    · simp [resubmitTeacher, h, hr, hrej]
    · have hpost : (resubmitTeacher ident now db).2.teacherRequests =
          updateFirst (fun t => t.email == ident.email)
            (fun t => { t with status := "pending", requestedAt := now })
            db.teacherRequests := by
        simp [resubmitTeacher, h, hr, hrej]
      show ((resubmitTeacher ident now db).2.teacherRequests.find?
        (fun t => t.email == ident.email)) = _
      rw [hpost, find?_updateFirst]
      · have hr' : db.teacherRequests.find? (fun t => t.email == ident.email) = some r := hr
        rw [hr']
        rfl
      · exact fun t ht => ht
  · intro hn
    simp [resubmitTeacher, h, hn]
  · intro r hr hrej
    simp [resubmitTeacher, h, hr, hrej]

/-- Witness for C7 at a concrete input. -/
theorem resubmit_only_from_rejected_witness :
    (∀ r, findTReq dbRejected "r@x.com" = some r → r.status = "rejected" →
       (resubmitTeacher ⟨"r@x.com", "student"⟩ 9 dbRejected).1 =
         ⟨200, "Teacher request resubmitted for review"⟩ ∧
       findTReq (resubmitTeacher ⟨"r@x.com", "student"⟩ 9 dbRejected).2 "r@x.com" =
         some { r with status := "pending", requestedAt := 9 }) ∧
    (findTReq dbRejected "r@x.com" = none →
       resubmitTeacher ⟨"r@x.com", "student"⟩ 9 dbRejected =
         (⟨400, "No rejected request to resubmit"⟩, dbRejected)) ∧
    (∀ r, findTReq dbRejected "r@x.com" = some r → r.status ≠ "rejected" →
       resubmitTeacher ⟨"r@x.com", "student"⟩ 9 dbRejected =
         (⟨400, "No rejected request to resubmit"⟩, dbRejected)) :=
  resubmit_only_from_rejected ⟨"r@x.com", "student"⟩ 9 dbRejected (by decide)

/-- A pending teacher request by `a@x.com` in a store with NO user records. -/
def reqPendingA : TReq :=
  ⟨"a@x.com", .vStr "A", .vStr "beginner", .vStr "T", .vStr "C", "pending", 0, none, none⟩

/-- Database for the C1 counterexample: the request exists, the user does not. -/
def dbNoUserA : DB := ⟨[], [], [], [reqPendingA]⟩

/-- C1 counterexample: from a reachable state in which the pending request's
user record is absent, approve reports success and sets the request's status
to `"approved"`, yet the user store is empty — so no user's role is
`"teacher"`: the two post-conditions do NOT hold together. -/
theorem approve_sync_counterexample :
    (approveTeacher ⟨"root@x.com", "admin"⟩ "a@x.com" 5 dbNoUserA).1.status = 200 ∧
    Option.map TReq.status
      (findTReq (approveTeacher ⟨"root@x.com", "admin"⟩ "a@x.com" 5 dbNoUserA).2 "a@x.com") =
      some "approved" ∧
    (approveTeacher ⟨"root@x.com", "admin"⟩ "a@x.com" 5 dbNoUserA).2.users = [] := by
  decide

/-- C1 (amended): approve succeeds iff a request with status exactly
`"pending"` exists for the email; on failure the state is unchanged; and on
success the first request stored for the email has status `"approved"`,
while — provided a user record with that email exists — the first user
record stored for the email has role `"teacher"`. -/
theorem approve_pending_guard_and_sync
    (ident : Ident) (email : String) (now : Nat) (db : DB)
    (hadm : ident.role = "admin") :
    ((approveTeacher ident email now db).1.status = 200 ↔
       ∃ r, findPendingTReq db email = some r) ∧
    ((approveTeacher ident email now db).1.status ≠ 200 →
       (approveTeacher ident email now db).2 = db) ∧
    (∀ r, findPendingTReq db email = some r →
       Option.map TReq.status (findTReq (approveTeacher ident email now db).2 email) =
         some "approved" ∧
       (∀ u, findUser db email = some u →
          Option.map User.role (findUser (approveTeacher ident email now db).2 email) =
            some "teacher")) := by
  cases hfp : findPendingTReq db email with
  | none =>
      refine ⟨?_, ?_, ?_⟩
      · simp [approveTeacher, hadm, hfp]
      · intro _; simp [approveTeacher, hadm, hfp]
      · intro r hr; exact absurd hr (by simp)
  | some r =>
      have hfp' : db.teacherRequests.find?
          (fun t => t.email == email && t.status == "pending") = some r := hfp
      have h200 : (approveTeacher ident email now db).1.status = 200 := by
        simp [approveTeacher, hadm, hfp]
      refine ⟨⟨fun _ => ⟨r, rfl⟩, fun _ => h200⟩, fun hne => absurd h200 hne, ?_⟩
      intro r' hr'
      have hrq : r.email = email ∧ r.status = "pending" := by
        have hq := List.find?_some hfp'
        simpa using hq
      have hrp : r.email = email := hrq.1
      have hrmem : r ∈ db.teacherRequests := List.mem_of_find?_eq_some hfp'
      have hpostT : (approveTeacher ident email now db).2.teacherRequests =
          updateFirst (fun t => t.email == email)
            (fun t => { t with status := "approved", approvedAt := some now })
            db.teacherRequests := by
        simp [approveTeacher, hadm, hfp]
      have hpostU : (approveTeacher ident email now db).2.users =
          updateFirst (fun u => u.email == email)
            (fun u => { u with role := "teacher" }) db.users := by
        simp [approveTeacher, hadm, hfp]
      constructor
      · show Option.map TReq.status
          ((approveTeacher ident email now db).2.teacherRequests.find?
            (fun t => t.email == email)) = some "approved"
        rw [hpostT, find?_updateFirst]
        · cases hfe : db.teacherRequests.find? (fun t => t.email == email) with
          | none => exact absurd hrp (by simpa using List.find?_eq_none.mp hfe r hrmem)
          | some t => rfl
        · exact fun t ht => ht
      · intro u hu
        show Option.map User.role
          ((approveTeacher ident email now db).2.users.find?
            (fun v => v.email == email)) = some "teacher"
        rw [hpostU, find?_updateFirst]
        · have hu' : db.users.find? (fun v => v.email == email) = some u := hu
          rw [hu']
          rfl
        · exact fun v hv => hv

/-- The student `c@z.com` with a pending teacher request, for the C1 witness. -/
def dbUserC : DB :=
  ⟨[⟨.vStr "C", "c@z.com", .vStr "P", "student", false⟩], [], [],
   [⟨"c@z.com", .vStr "C", .vStr "experienced", .vStr "T3", .vStr "C3", "pending", 4, none, none⟩]⟩

/-- Witness for the amended C1 at a concrete input. -/
theorem approve_pending_guard_and_sync_witness :
    ((approveTeacher ⟨"adm@z.com", "admin"⟩ "c@z.com" 11 dbUserC).1.status = 200 ↔
       ∃ r, findPendingTReq dbUserC "c@z.com" = some r) ∧
    ((approveTeacher ⟨"adm@z.com", "admin"⟩ "c@z.com" 11 dbUserC).1.status ≠ 200 →
       (approveTeacher ⟨"adm@z.com", "admin"⟩ "c@z.com" 11 dbUserC).2 = dbUserC) ∧
    (∀ r, findPendingTReq dbUserC "c@z.com" = some r →
       Option.map TReq.status
         (findTReq (approveTeacher ⟨"adm@z.com", "admin"⟩ "c@z.com" 11 dbUserC).2 "c@z.com") =
         some "approved" ∧
       (∀ u, findUser dbUserC "c@z.com" = some u →
          Option.map User.role
            (findUser (approveTeacher ⟨"adm@z.com", "admin"⟩ "c@z.com" 11 dbUserC).2 "c@z.com") =
            some "teacher")) :=
  approve_pending_guard_and_sync ⟨"adm@z.com", "admin"⟩ "c@z.com" 11 dbUserC (by decide)

/-- A pending teacher request by `b@y.com`, whose user record is absent. -/
def dbNoUserB : DB :=
  ⟨[], [], [], [⟨"b@y.com", .vStr "B", .vStr "mid-level", .vStr "T2", .vStr "C2", "pending", 3, none, none⟩]⟩

/-- C2: evaluation of approve at the failing input — the user record for
`b@y.com` has vanished, yet the operation succeeds with 200 and marks the
request `"approved"` instead of failing with a not-found error and leaving
it `"pending"` as the design requires. -/
theorem approve_missing_user_divergence :
    findUser dbNoUserB "b@y.com" = none ∧
    (approveTeacher ⟨"root@y.com", "admin"⟩ "b@y.com" 9 dbNoUserB).1 =
      ⟨200, "Teacher request approved and user role updated"⟩ ∧
    Option.map TReq.status
      (findTReq (approveTeacher ⟨"root@y.com", "admin"⟩ "b@y.com" 9 dbNoUserB).2 "b@y.com") =
      some "approved" := by
  decide

/-- C10: an authorized content update touches only whitelisted fields.  The
updated class document agrees with the old one on every field outside
{title, price, description, image}, and also on every field for which the
payload value is falsy (or absent); in particular `status` and `email` keep
their prior values no matter what the payload supplies for them. -/
theorem putClass_frame
    (ident : Ident) (id : Nat) (update : Doc) (db : DB) (c : ClassDoc)
    (hc : findClass db id = some c)
    (hauth : ident.role = "admin" ∨ getField c.fields "email" = some (.vStr ident.email)) :
    (putClass ident id update db).1 = ⟨200, "Class updated"⟩ ∧
    ∃ c', findClass (putClass ident id update db).2 id = some c' ∧
      (∀ k, k ∉ allowedFields → getField c'.fields k = getField c.fields k) ∧
      (∀ k, truthyField update k = false → getField c'.fields k = getField c.fields k) ∧
      getField c'.fields "status" = getField c.fields "status" ∧
      getField c'.fields "email" = getField c.fields "email" := by
  have hcond : ¬(ident.role ≠ "admin" ∧
      getField c.fields "email" ≠ some (.vStr ident.email)) := by
    rcases hauth with h | h
    · exact fun hh => hh.1 h
    · exact fun hh => hh.2 h
  have hpost : (putClass ident id update db).2.classes =
      updateFirst (fun x => x.id == id)
        (fun x => { x with fields := applySet x.fields (updateFieldsOf update) })
        db.classes := by
    simp [putClass, hc, hcond]
  refine ⟨by simp [putClass, hc, hcond],
    ⟨c.id, applySet c.fields (updateFieldsOf update)⟩, ?_, ?_, ?_, ?_, ?_⟩
  · show ((putClass ident id update db).2.classes.find? (fun x => x.id == id)) = _
    rw [hpost, find?_updateFirst]
    · have hc' : db.classes.find? (fun x => x.id == id) = some c := hc
      rw [hc']
      rfl
    · exact fun x hx => hx
  · intro k hk
    exact getField_applySet_of_forall_ne _ _ _
      (fun kv hkv hkk => hk (hkk ▸ (mem_updateFieldsOf hkv).1))
  · intro k hk
    apply getField_applySet_of_forall_ne
    intro kv hkv hkk
    have htr := (mem_updateFieldsOf hkv).2
    rw [hkk, hk] at htr
    exact absurd htr (by simp)
  · exact getField_applySet_of_forall_ne _ _ _ (fun kv hkv hkk => by
      have h1 := (mem_updateFieldsOf hkv).1
      rw [hkk] at h1
      revert h1
      decide)
  · exact getField_applySet_of_forall_ne _ _ _ (fun kv hkv hkk => by
      have h1 := (mem_updateFieldsOf hkv).1
      rw [hkk] at h1
      revert h1
      decide)

/-- Witness for C10 at a concrete input: the payload carries a truthy
`title`, a falsy `price` and a foreign `status`; only `title` changes. -/
theorem putClass_frame_witness :
    (putClass ⟨"t@x.com", "teacher"⟩ 1
        [("title", JsVal.vStr "New"), ("price", JsVal.vNum 0),
         ("status", JsVal.vStr "approved")] dbClasses).1 = ⟨200, "Class updated"⟩ ∧
    ∃ c', findClass (putClass ⟨"t@x.com", "teacher"⟩ 1
        [("title", JsVal.vStr "New"), ("price", JsVal.vNum 0),
         ("status", JsVal.vStr "approved")] dbClasses).2 1 = some c' ∧
      (∀ k, k ∉ allowedFields → getField c'.fields k = getField exClass.fields k) ∧
      (∀ k, truthyField [("title", JsVal.vStr "New"), ("price", JsVal.vNum 0),
         ("status", JsVal.vStr "approved")] k = false →
        getField c'.fields k = getField exClass.fields k) ∧
      getField c'.fields "status" = getField exClass.fields "status" ∧
      getField c'.fields "email" = getField exClass.fields "email" :=
  putClass_frame ⟨"t@x.com", "teacher"⟩ 1
    [("title", JsVal.vStr "New"), ("price", JsVal.vNum 0), ("status", JsVal.vStr "approved")]
    dbClasses exClass (by decide) (Or.inr (by decide))

/-- C8: the apply-as-teacher operation preserves "at most one teacher-request
record per email"; a user whose role is `"teacher"` cannot apply; applying
over a pending request fails with no change; and applying over a rejected
request re-uses the same record (same collection size), setting it back to
`"pending"` with a refreshed timestamp. -/
theorem requestTeacher_at_most_one
    (ident : Ident) (name experience title category : JsVal) (now : Nat) (db : DB) :
    (∀ e, treqCount db e ≤ 1 →
       treqCount (requestTeacher ident name experience title category now db).2 e ≤ 1) ∧
    (∀ u, ident.email ≠ "" → truthy name = true → truthy experience = true →
       truthy title = true → truthy category = true →
       findUser db ident.email = some u → u.role = "teacher" →
       requestTeacher ident name experience title category now db =
         (⟨400, "You are already a teacher"⟩, db)) ∧
    (∀ u r, ident.email ≠ "" → truthy name = true → truthy experience = true →
       truthy title = true → truthy category = true →
       findUser db ident.email = some u → u.role ≠ "teacher" →
       findTReq db ident.email = some r → r.status = "pending" →
       requestTeacher ident name experience title category now db =
         (⟨400, "Teacher request already pending"⟩, db)) ∧
    (∀ u r, ident.email ≠ "" → truthy name = true → truthy experience = true →
       truthy title = true → truthy category = true →
       findUser db ident.email = some u → u.role ≠ "teacher" →
       findTReq db ident.email = some r → r.status = "rejected" →
       (requestTeacher ident name experience title category now db).1 =
         ⟨200, "Teacher request submitted for review"⟩ ∧
       (requestTeacher ident name experience title category now db).2.teacherRequests.length =
         db.teacherRequests.length ∧
       findTReq (requestTeacher ident name experience title category now db).2 ident.email =
         some { r with name := name, experience := experience, title := title,
                       category := category, status := "pending", requestedAt := now }) := by
  refine ⟨?_, ?_, ?_, ?_⟩
  · intro e he
    by_cases h1 : ident.email = ""
    · simpa [requestTeacher, h1] using he
    · by_cases h2 : (!truthy name || !truthy experience || !truthy title || !truthy category) = true
      · simpa [requestTeacher, h1, h2] using he
      · have h2' : (!truthy name || !truthy experience || !truthy title || !truthy category) = false :=
          Bool.eq_false_iff.mpr h2
        cases hu : findUser db ident.email with
        | none => simpa [requestTeacher, h1, h2', hu] using he
        | some u =>
          by_cases h3 : u.role = "teacher"
          · simpa [requestTeacher, h1, h2', hu, h3] using he
          · cases hr : findTReq db ident.email with
            | none =>
                have hpost : (requestTeacher ident name experience title category now db).2.teacherRequests =
                    db.teacherRequests ++
                      [⟨ident.email, name, experience, title, category, "pending", now, none, none⟩] := by
                  simp [requestTeacher, h1, h2', hu, h3, hr]
                show ((requestTeacher ident name experience title category now db).2.teacherRequests.filter
                  (fun t => t.email == e)).length ≤ 1
                rw [hpost, List.filter_append, List.length_append]
                by_cases he' : ident.email = e
                · have hnil : db.teacherRequests.filter (fun t => t.email == e) = [] := by
                    apply filter_eq_nil_of_find?_none
                    rw [← he']
                    exact hr
                  simp [hnil, he']
                · have hone : List.filter (fun t => t.email == e)
                      [(⟨ident.email, name, experience, title, category, "pending", now, none, none⟩ : TReq)] = [] := by
                    simp [he']
                  rw [hone]
                  simpa using he
            | some r =>
                by_cases h4 : r.status = "pending"
                · simpa [requestTeacher, h1, h2', hu, h3, hr, h4] using he
                · have hpost : (requestTeacher ident name experience title category now db).2.teacherRequests =
                      updateFirst (fun t => t.email == ident.email)
                        (fun t =>
                          { t with
                            name := name
                            experience := experience
                            title := title
                            category := category
                            status := "pending"
                            requestedAt := now })
                        db.teacherRequests := by
                    simp [requestTeacher, h1, h2', hu, h3, hr, h4]
                  show ((requestTeacher ident name experience title category now db).2.teacherRequests.filter
                    (fun t => t.email == e)).length ≤ 1
                  rw [hpost, length_filter_updateFirst]
                  · exact he
                  · exact fun x => rfl
  · intro u h1 ht1 ht2 ht3 ht4 hu h3
    have h2' : (!truthy name || !truthy experience || !truthy title || !truthy category) = false := by
      simp [ht1, ht2, ht3, ht4]
    simp [requestTeacher, h1, h2', hu, h3]
  · intro u r h1 ht1 ht2 ht3 ht4 hu h3 hr h4
    have h2' : (!truthy name || !truthy experience || !truthy title || !truthy category) = false := by
      simp [ht1, ht2, ht3, ht4]
    simp [requestTeacher, h1, h2', hu, h3, hr, h4]
  · intro u r h1 ht1 ht2 ht3 ht4 hu h3 hr h4
    have h2' : (!truthy name || !truthy experience || !truthy title || !truthy category) = false := by
      simp [ht1, ht2, ht3, ht4]
    have h4' : r.status ≠ "pending" := by rw [h4]; decide
    have hpost : (requestTeacher ident name experience title category now db).2.teacherRequests =
        updateFirst (fun t => t.email == ident.email)
          (fun t =>
            { t with
              name := name
              experience := experience
              title := title
              category := category
              status := "pending"
              requestedAt := now })
          db.teacherRequests := by
      simp [requestTeacher, h1, h2', hu, h3, hr, h4']
    refine ⟨by simp [requestTeacher, h1, h2', hu, h3, hr, h4'], ?_, ?_⟩
    · rw [hpost]
      have : ∀ (l : List TReq), (updateFirst (fun t => t.email == ident.email)
          (fun t =>
            { t with
              name := name
              experience := experience
              title := title
              category := category
              status := "pending"
              requestedAt := now }) l).length = l.length := by
        intro l
        induction l with
        | nil => rfl
        | cons x xs ih =>
            by_cases hx : (x.email == ident.email) = true
            · simp [updateFirst, hx]
            · simp [updateFirst, hx, ih]
      exact this db.teacherRequests
    · show ((requestTeacher ident name experience title category now db).2.teacherRequests.find?
        (fun t => t.email == ident.email)) = _
      rw [hpost, find?_updateFirst]
      · have hr' : db.teacherRequests.find? (fun t => t.email == ident.email) = some r := hr
        rw [hr']
        rfl
      · exact fun t ht => ht

/-- Witness for C8 at a concrete input: `r@x.com` (whose request is
rejected in `dbRejected`) applies again; the request collection keeps its
single record, now pending with the new timestamp. -/
theorem requestTeacher_at_most_one_witness :
    (∀ e, treqCount dbRejected e ≤ 1 →
       treqCount (requestTeacher ⟨"r@x.com", "student"⟩ (.vStr "R") (.vStr "beginner")
         (.vStr "T") (.vStr "C") 9 dbRejected).2 e ≤ 1) ∧
    (requestTeacher ⟨"r@x.com", "student"⟩ (.vStr "R") (.vStr "beginner")
       (.vStr "T") (.vStr "C") 9 dbRejected).2.teacherRequests.length =
      dbRejected.teacherRequests.length ∧
    findTReq (requestTeacher ⟨"r@x.com", "student"⟩ (.vStr "R") (.vStr "beginner")
       (.vStr "T") (.vStr "C") 9 dbRejected).2 "r@x.com" =
      some { exReqRejected with
              name := .vStr "R"
              experience := .vStr "beginner"
              title := .vStr "T"
              category := .vStr "C"
              status := "pending"
              requestedAt := 9 } := by
  have hmain := requestTeacher_at_most_one ⟨"r@x.com", "student"⟩ (.vStr "R") (.vStr "beginner")
    (.vStr "T") (.vStr "C") 9 dbRejected
  obtain ⟨hinv, -, -, hresub⟩ := hmain
  have hres := hresub ⟨.vStr "R", "r@x.com", .vStr "P", "student", false⟩ exReqRejected
    (by decide) (by decide) (by decide) (by decide) (by decide) (by decide) (by decide)
    (by decide) (by decide)
  exact ⟨hinv, hres.2.1, hres.2.2⟩

/-- C4: enroll fails with 404 when the class is absent; fails with the
409-style conflict (HTTP 400, "Already enrolled in this class") when an
enrollment for (classId, email) exists, creating nothing; otherwise inserts
exactly one enrollment stamped with the server time.  Consequently a second
enroll for the same pair reports the conflict, leaves the state unchanged,
and exactly one enrollment for the pair is stored. -/
theorem enroll_guard
    (ident : Ident) (classId now now' : Nat) (db : DB) (h : ident.email ≠ "") :
    (findClass db classId = none →
       enroll ident classId now db = (⟨404, "Class not found"⟩, db)) ∧
    (∀ c, findClass db classId = some c →
       ∀ e0, findEnroll db classId ident.email = some e0 →
       enroll ident classId now db = (⟨400, "Already enrolled in this class"⟩, db)) ∧
    (∀ c, findClass db classId = some c → findEnroll db classId ident.email = none →
       enroll ident classId now db =
         (⟨201, "Enrolled successfully"⟩,
          { db with enrolls := db.enrolls ++ [⟨classId, ident.email, now⟩] })) ∧
    (∀ c, findClass db classId = some c → findEnroll db classId ident.email = none →
       (enroll ident classId now' (enroll ident classId now db).2).1 =
         ⟨400, "Already enrolled in this class"⟩ ∧
       (enroll ident classId now' (enroll ident classId now db).2).2 =
         (enroll ident classId now db).2 ∧
       ((enroll ident classId now db).2.enrolls.filter
         (fun x => x.classId == classId && x.email == ident.email)).length = 1) := by
  refine ⟨?_, ?_, ?_, ?_⟩
  · intro hn
    simp [enroll, h, hn]
  · intro c hc e0 he0
    simp [enroll, h, hc, he0]
  · intro c hc hen
    simp [enroll, h, hc, hen]
  · intro c hc hen
    have hdb1 : (enroll ident classId now db).2 =
        { db with enrolls := db.enrolls ++ [⟨classId, ident.email, now⟩] } := by
      simp [enroll, h, hc, hen]
    have hc1 : findClass (enroll ident classId now db).2 classId = some c := by
      rw [hdb1]; exact hc
    have he1 : findEnroll (enroll ident classId now db).2 classId ident.email =
        some ⟨classId, ident.email, now⟩ := by
      rw [hdb1]
      show ((db.enrolls ++ [(⟨classId, ident.email, now⟩ : Enrollment)]).find?
        (fun x => x.classId == classId && x.email == ident.email)) = _
      rw [find?_append_of_none _ _ _ hen]
      simp
    have hstep : enroll ident classId now' (enroll ident classId now db).2 =
        (⟨400, "Already enrolled in this class"⟩, (enroll ident classId now db).2) := by
      generalize hd : (enroll ident classId now db).2 = db1 at hc1 he1
      simp [enroll, h, hc1, he1]
    refine ⟨by rw [hstep], by rw [hstep], ?_⟩
    rw [hdb1]
    show ((db.enrolls ++ [(⟨classId, ident.email, now⟩ : Enrollment)]).filter
      (fun x => x.classId == classId && x.email == ident.email)).length = 1
    rw [List.filter_append, filter_eq_nil_of_find?_none _ _ hen]
    simp

/-- Witness for C4 at a concrete input: a double enroll of `s@x.com` into
class 1 of `dbClasses`. -/
theorem enroll_guard_witness :
    (enroll ⟨"s@x.com", "student"⟩ 1 4 (enroll ⟨"s@x.com", "student"⟩ 1 3 dbClasses).2).1 =
      ⟨400, "Already enrolled in this class"⟩ ∧
    (enroll ⟨"s@x.com", "student"⟩ 1 4 (enroll ⟨"s@x.com", "student"⟩ 1 3 dbClasses).2).2 =
      (enroll ⟨"s@x.com", "student"⟩ 1 3 dbClasses).2 ∧
    ((enroll ⟨"s@x.com", "student"⟩ 1 3 dbClasses).2.enrolls.filter
      (fun x => x.classId == 1 && x.email == "s@x.com")).length = 1 := by
  have hmain := enroll_guard ⟨"s@x.com", "student"⟩ 1 3 4 dbClasses (by decide)
  obtain ⟨-, -, -, h4⟩ := hmain
  exact h4 exClass (by decide) (by decide)

end EduManage
